import Mathlib

/-!
Shallow embedding of qinfer's performance-testing harness
(src/src/qinfer/perf_testing.py): the Timer class, the performance-record
dtype, the single-trial harness perf_test, the multi-trial harness
perf_test_multiple together with its serial apply capability, and the
tskmon progress-reporting thread (WebProgressThread).

Python-level behaviours the claims depend on are modelled explicitly:
name resolution inside apply_serial.__init__ (whose body reads the free
name fn), the local-variable binding of thread and task inside
perf_test_multiple, numpy's 1-D and vector-matrix dot products, and the
interleaving of the main trial loop with the progress thread.
-/

/-- Python runtime errors relevant to this module: NameError for a free
name missing from every scope, UnboundLocalError for a function local
read before assignment. -/
inductive PyErr where
  | nameError (n : String)
  | unboundLocal (n : String)
deriving DecidableEq

/-- The names bound at module level in qinfer/perf_testing.py: the
future import, the four imports, the module constant and the six
module-level definitions. The name fn is not among them. -/
def perf_testing_module_globals : List String :=
  ["division", "contextmanager", "partial", "threading", "time", "np",
   "SMCUpdater", "__all__", "Timer", "WebProgressThread", "timing",
   "PERFORMANCE_DTYPE", "perf_test", "apply_serial", "perf_test_multiple"]

/-- The Python builtins referenced by the module. The name fn is not a
builtin either. -/
def python_builtins : List String :=
  ["print", "xrange", "getattr", "type", "Exception", "object", "super",
   "enumerate", "None", "True", "False"]

/-- The names bound in the scope of apply_serial.__init__(self, *args,
**kwargs): exactly its three parameters. The body never assigns fn, so
fn is not a local of this function. -/
def apply_serial_init_locals : List String := ["self", "args", "kwargs"]

/-- Python name resolution as seen from a function body: a name is found
if it is a local of the function, a module global, or a builtin;
otherwise evaluating it raises NameError. (A method does not see its
class body as an enclosing scope.) -/
def resolveName (locals : List String) (n : String) : Except PyErr Unit :=
  if n ∈ locals ∨ n ∈ perf_testing_module_globals ∨ n ∈ python_builtins then
    Except.ok ()
  else
    Except.error (PyErr.nameError n)

/-- The handle produced by an apply capability: get() yields the trial
result or propagates the trial's error. -/
structure ApplyHandle (R : Type) where
  get : Except PyErr R

/-- apply_serial's constructor, from the source:

def __init__(self, *args, **kwargs):
    self._fn = fn
    ...

The first statement evaluates the name fn, which is neither a parameter
nor a module global nor a builtin; if that lookup succeeded the object
would memoise fn and its arguments and get() would run it synchronously
(modelled by the ok branch, which is unreachable). -/
def apply_serial_init {R : Type} (fnArg : Unit → R) : Except PyErr (ApplyHandle R) :=
  match resolveName apply_serial_init_locals "fn" with
  | Except.ok _ => Except.ok { get := Except.ok (fnArg ()) }
  | Except.error e => Except.error e

/-- A Python function local: either still unbound, or bound to a value.
Reading an unbound local raises UnboundLocalError. -/
inductive LocalVar (A : Type) where
  | unbound
  | bound (v : A)

/-- The tskmon client collaborator consumed by perf_test_multiple: all
the harness observes of client.new_task(...) is whether it succeeds. -/
structure TskmonClient where
  new_task_ok : Bool

/-- The dispatch loop of perf_test_multiple:
results = [apply(trial_fn) for idx in xrange(n_trials)]. -/
def dispatchLoop {R : Type} (applyCap : (Unit → R) → Except PyErr (ApplyHandle R))
    (trial_fn : Unit → R) : ℕ → Except PyErr (List (ApplyHandle R))
  | 0 => Except.ok []
  | n + 1 =>
    match applyCap trial_fn with
    | Except.error e => Except.error e
    | Except.ok h =>
      match dispatchLoop applyCap trial_fn n with
      | Except.error e => Except.error e
      | Except.ok hs => Except.ok (h :: hs)

/-- The collection loop of perf_test_multiple: for each handle,
performance[idx, :] = result.get(), then the statement
if thread is not None: ... is executed, which reads the local thread
and raises UnboundLocalError when that local was never assigned. -/
def collectLoop {R : Type} (threadL : LocalVar (Option Unit)) :
    List (ApplyHandle R) → Except PyErr (List R)
  | [] => Except.ok []
  | h :: hs =>
    match h.get with
    | Except.error e => Except.error e
    | Except.ok r =>
      match threadL with
      | LocalVar.unbound => Except.error (PyErr.unboundLocal "thread")
      | LocalVar.bound _ =>
        match collectLoop threadL hs with
        | Except.error e => Except.error e
        | Except.ok rs => Except.ok (r :: rs)

/-- Control-flow model of perf_test_multiple. The locals thread and
task are assigned only inside the branch guarded by
if tskmon_client is not None (either to live objects when
client.new_task succeeds, or to None in its except handler); when
tskmon_client is None they remain unbound. After dispatch and
collection, the statement if task is not None: ... reads the local
task. -/
def perf_test_multiple_model {R : Type} (n_trials : ℕ) (trial_fn : Unit → R)
    (applyCap : (Unit → R) → Except PyErr (ApplyHandle R))
    (tskmon_client : Option TskmonClient) : Except PyErr (List R) :=
  let threadL : LocalVar (Option Unit) :=
    match tskmon_client with
    | some c => LocalVar.bound (if c.new_task_ok then some () else none)
    | none => LocalVar.unbound
  let taskL : LocalVar (Option Unit) :=
    match tskmon_client with
    | some c => LocalVar.bound (if c.new_task_ok then some () else none)
    | none => LocalVar.unbound
  match dispatchLoop applyCap trial_fn n_trials with
  | Except.error e => Except.error e
  | Except.ok handles =>
    match collectLoop threadL handles with
    | Except.error e => Except.error e
    | Except.ok rows =>
      match taskL with
      | LocalVar.unbound => Except.error (PyErr.unboundLocal "task")
      | LocalVar.bound _ => Except.ok rows

/-- PERFORMANCE_DTYPE, the four fixed fields of a performance record,
as (field name, type name) pairs. -/
def PERFORMANCE_DTYPE : List (String × String) :=
  [("loss", "float"), ("resample_count", "int"),
   ("elapsed_time", "float"), ("outcome", "int")]

/-- The dtype of the array allocated by perf_test:
PERFORMANCE_DTYPE + model.expparams_dtype. -/
def perf_test_result_dtype (expparams_dtype : List (String × String)) :
    List (String × String) :=
  PERFORMANCE_DTYPE ++ expparams_dtype

/-- The dtype of the array allocated by perf_test_multiple:
np.zeros((n_trials, n_exp), dtype=PERFORMANCE_DTYPE) - the model's
expparams_dtype is not appended there. -/
def perf_test_multiple_result_dtype : List (String × String) := PERFORMANCE_DTYPE

/-- A row of perf_test_multiple's array: exactly the four
PERFORMANCE_DTYPE fields. -/
structure Row4 where
  loss : ℚ
  resample_count : ℤ
  elapsed_time : ℚ
  outcome : ℤ
deriving DecidableEq

/-- The allocation np.zeros((n_trials, n_exp), dtype=PERFORMANCE_DTYPE):
n_trials rows of n_exp zeroed records. -/
def perf_test_multiple_alloc (n_trials n_exp : ℕ) : List (List Row4) :=
  List.replicate n_trials (List.replicate n_exp { loss := 0, resample_count := 0, elapsed_time := 0, outcome := 0 })

/-- numpy's 1-D dot product: np.dot(v, w) for two vectors. -/
def npDotVV (v w : List ℚ) : ℚ := (List.zipWith (fun a b => a * b) v w).sum

/-- A row scaled by a coefficient. -/
def scaleRow (a : ℚ) (row : List ℚ) : List ℚ := row.map (fun x => a * x)

/-- Elementwise sum of two rows. -/
def addRow (r1 r2 : List ℚ) : List ℚ := List.zipWith (fun x y => x + y) r1 r2

/-- numpy's vector-matrix product np.dot(v, M): the linear combination
of the rows of M with coefficients v, i.e. component j is the dot of v
with column j of M. -/
def npDotVM (v : List ℚ) (M : List (List ℚ)) : List ℚ :=
  match List.zipWith scaleRow v M with
  | [] => []
  | r :: rs => rs.foldl addRow r

/-- The quadratic form d^T M d of the spec's words: loss =
(mean - true)^T Q (mean - true) with Q a square matrix. -/
def quadForm (d : List ℚ) (M : List (List ℚ)) : ℚ :=
  npDotVV d (M.map (fun row => npDotVV row d))

/-- The loss expression of the source for one true parameter vector:
np.dot(delta**2, model.Q) with delta = est_mean - true and model.Q a
per-parameter weight vector. -/
def lossOf (mean tru Q : List ℚ) : ℚ :=
  npDotVV ((List.zipWith (fun a b => a - b) mean tru).map (fun x => x ^ 2)) Q

/-- The diagonal matrix built from a weight vector. -/
def diagM : List ℚ → List (List ℚ)
  | [] => []
  | q :: qs => (q :: List.replicate qs.length 0) :: (diagM qs).map (fun row => (0 : ℚ) :: row)

/-- The Timer class: _tic is set to the clock at construction, _toc by
stop(); reading delta_t before stop uses the current clock instead of
_toc. Clock readings are modelled as rationals handed in explicitly. -/
structure Timer where
  tic : ℚ
  toc : Option ℚ
deriving DecidableEq

/-- Timer.__init__: records the creation time. -/
def Timer.create (now : ℚ) : Timer := { tic := now, toc := none }

/-- Timer.stop: records the stop time. -/
def Timer.stop (t : Timer) (now : ℚ) : Timer := { t with toc := some now }

/-- The delta_t property: (self._toc if self._toc is not None else
time.time()) - self._tic, where now is the clock at the moment of the
read. -/
def Timer.delta_t (t : Timer) (now : ℚ) : ℚ := (t.toc.getD now) - t.tic

/-- The timing() context manager: creates a Timer on entry at clock t0
and calls stop() on block exit at clock t1. -/
def timing_run (t0 t1 : ℚ) : Timer := (Timer.create t0).stop t1

/-- Modelled from the spec: the true model collaborator, of which the
harness uses only simulate_experiment(parameters, expparams) -> outcome;
with a (n_true, n_params) array of true parameters it returns one
integer outcome per true parameter vector. -/
structure TrueModel (EP : Type) where
  simulate_experiment : List (List ℚ) → EP → List ℤ

/-- Modelled from the spec: the call contract the harness requires from
the SMCUpdater built once per trial from (model, n_particles, prior) -
init is that freshly constructed state, and update, est_mean and
resample_count are the three members perf_test calls on it. qinfer/smc.py
itself is not under src/. -/
structure UpdaterOps (U EP : Type) where
  init : U
  update : U → List ℤ → EP → U
  est_mean : U → List ℚ
  resample_count : U → ℕ

/-- Modelled from the spec: the heuristic collaborator, constructed once
from the updater (init) and then called with no arguments; each call may
read the updater's current state (it holds a live reference), so the
call is passed the current updater state, and the heuristic may carry
private state H of its own. -/
structure Heuristic (H U EP : Type) where
  init : U → H
  call : H → U → EP × H

/-- One row of the array perf_test fills: the four PERFORMANCE_DTYPE
fields plus the experiment-parameter record (standing for the one field
per entry of model.expparams_dtype that the source copies over). -/
structure PerfRecord (EP : Type) where
  loss : ℚ
  resample_count : ℕ
  elapsed_time : ℚ
  outcome : ℤ
  expparams : EP
deriving DecidableEq

/-- Events of one perf_test run, in execution order: updater and
heuristic construction, then per experiment index the heuristic call,
the simulate_experiment call, the updater.update call, and either the
performance-record write or the numpy broadcast error raised when a
multi-valued loss or outcome is stored into a scalar record field. -/
inductive Ev where
  | mkUpdater
  | mkHeuristic
  | heurCall (i : ℕ)
  | simCall (i : ℕ)
  | updCall (i : ℕ)
  | recWrite (i : ℕ)
  | assignErr (i : ℕ)
deriving DecidableEq

/-- The four events of one successful loop iteration. -/
def traceBlock (i : ℕ) : List Ev :=
  [Ev.heurCall i, Ev.simCall i, Ev.updCall i, Ev.recWrite i]

/-- The body of perf_test's for idx_exp in xrange(n_exp) loop. Each
iteration: expparams = heuristic(); datum =
true_model.simulate_experiment(true_mps, expparams); the update is
timed by a Timer created just before and stopped just after it (clock
readings 2i and 2i+1); then the record is filled with t.delta_t,
np.dot(delta**2, model.Q), updater.resample_count, datum and the
expparams fields. Storing into the scalar loss and outcome fields
succeeds only when the loss vector (one entry per true parameter
vector) and the outcome vector have exactly one entry; otherwise the
assignment raises and the trial dies there. Returns the records, the
event trace, and the final updater state (none when the trial died). -/
def perf_testLoop {EP U H : Type} (tm : TrueModel EP) (Q : List ℚ)
    (ops : UpdaterOps U EP) (hz : Heuristic H U EP)
    (trueMps : List (List ℚ)) (clock : ℕ → ℚ) :
    ℕ → ℕ → U → H → List (PerfRecord EP) × List Ev × Option U
  | 0, _, u, _ => ([], [], some u)
  | fuel + 1, i, u, h =>
    let eps := (hz.call h u).1
    let h2 := (hz.call h u).2
    let datum := tm.simulate_experiment trueMps eps
    let tmr := Timer.create (clock (2 * i))
    let u2 := ops.update u datum eps
    let tmr2 := tmr.stop (clock (2 * i + 1))
    let losses := trueMps.map (fun t => lossOf (ops.est_mean u2) t Q)
    if losses.length = 1 ∧ datum.length = 1 then
      let r : PerfRecord EP :=
        { loss := losses.headI
          resample_count := ops.resample_count u2
          elapsed_time := tmr2.delta_t (clock (2 * i + 1))
          outcome := datum.headI
          expparams := eps }
      let rest := perf_testLoop tm Q ops hz trueMps clock fuel (i + 1) u2 h2
      (r :: rest.1,
       Ev.heurCall i :: Ev.simCall i :: Ev.updCall i :: Ev.recWrite i :: rest.2.1,
       rest.2.2)
    else
      ([], [Ev.heurCall i, Ev.simCall i, Ev.updCall i, Ev.assignErr i], none)

/-- perf_test: constructs the updater from (model, n_particles, prior)
and the heuristic from the updater, once each and before the loop, then
runs n_exp iterations. -/
def perf_test {EP U H : Type} (tm : TrueModel EP) (Q : List ℚ)
    (ops : UpdaterOps U EP) (hz : Heuristic H U EP)
    (trueMps : List (List ℚ)) (clock : ℕ → ℚ) (n_exp : ℕ) :
    List (PerfRecord EP) × List Ev × Option U :=
  let res := perf_testLoop tm Q ops hz trueMps clock n_exp 0 ops.init (hz.init ops.init)
  (res.1, Ev.mkUpdater :: Ev.mkHeuristic :: res.2.1, res.2.2)

/-- The canonical (updater, heuristic) state sequence of a trial:
state 0 is the pair as constructed, state i+1 follows by one
heuristic-simulate-update cycle. -/
def trialState {EP U H : Type} (tm : TrueModel EP) (ops : UpdaterOps U EP)
    (hz : Heuristic H U EP) (trueMps : List (List ℚ)) : ℕ → U × H
  | 0 => (ops.init, hz.init ops.init)
  | i + 1 =>
    let p := trialState tm ops hz trueMps i
    (ops.update p.1 (tm.simulate_experiment trueMps (hz.call p.2 p.1).1) (hz.call p.2 p.1).1,
     (hz.call p.2 p.1).2)

/-- The experiment parameters chosen by the heuristic at experiment i. -/
def trialEps {EP U H : Type} (tm : TrueModel EP) (ops : UpdaterOps U EP)
    (hz : Heuristic H U EP) (trueMps : List (List ℚ)) (i : ℕ) : EP :=
  (hz.call (trialState tm ops hz trueMps i).2 (trialState tm ops hz trueMps i).1).1

/-- The simulated outcome vector of experiment i. -/
def trialDatum {EP U H : Type} (tm : TrueModel EP) (ops : UpdaterOps U EP)
    (hz : Heuristic H U EP) (trueMps : List (List ℚ)) (i : ℕ) : List ℤ :=
  tm.simulate_experiment trueMps (trialEps tm ops hz trueMps i)

/-- The performance record the source writes at experiment index i of a
trial with the single true parameter vector t: the loss
np.dot((est_mean - t)**2, Q) at the posterior after update i, the
cumulative resample count after update i, the delta_t of the Timer
wrapping update i (clock readings 2i and 2i+1), the outcome of
experiment i and the expparams used for it. -/
def recAt {EP U H : Type} (tm : TrueModel EP) (Q : List ℚ)
    (ops : UpdaterOps U EP) (hz : Heuristic H U EP) (t : List ℚ)
    (clock : ℕ → ℚ) (i : ℕ) : PerfRecord EP :=
  { loss := lossOf (ops.est_mean (trialState tm ops hz [t] (i + 1)).1) t Q
    resample_count := ops.resample_count (trialState tm ops hz [t] (i + 1)).1
    elapsed_time := (timing_run (clock (2 * i)) (clock (2 * i + 1))).delta_t (clock (2 * i + 1))
    outcome := (trialDatum tm ops hz [t] i).headI
    expparams := trialEps tm ops hz [t] i }

/-- The non-loss payload of a performance record: everything except the
loss field, which is the only field computed from true_mps itself. -/
def stripLoss {EP : Type} (r : PerfRecord EP) : ℕ × ℚ × ℤ × EP :=
  (r.resample_count, r.elapsed_time, r.outcome, r.expparams)

/-- Program counter of WebProgressThread.run: the loop reads done, reads
dirty, attempts self._task.update(progress=self.progress) (which may
raise and be caught/printed), on success clears dirty and then the wake
event, and finally blocks in wake_event.wait(). -/
inductive ThrPC where
  | checkDone
  | checkDirty
  | attempt
  | setDirtyFalse
  | clearEv
  | waitEv
  | halted
deriving DecidableEq

/-- Joint state of perf_test_multiple's collection loop and its
WebProgressThread: the shared fields progress, dirty, done and the wake
event, the main loop's executed-step counter mainC and collected-result
counter, the thread's program counter, and the list of progress values
successfully pushed via task.update, in order. -/
structure TSt where
  progress : ℕ
  dirty : Bool
  done : Bool
  evSet : Bool
  mainC : ℕ
  collected : ℕ
  thr : ThrPC
  pushes : List ℕ
deriving DecidableEq

/-- One atomic statement of the main loop. -/
inductive MainA where
  | collectRes
  | setProgress (k : ℕ)
  | setDirty
  | setEvent
  | setDone

/-- The main loop's atomic statements in program order, indexed by how
many have already run: for each idx in xrange(n_trials) it executes
performance[idx, :] = result.get(); thread.progress = idx + 1;
thread.dirty = True; wake_event.set(); and after the loop thread.done =
True; wake_event.set(). -/
def mainAct (n c : ℕ) : MainA :=
  if c < 4 * n then
    if c % 4 = 0 then MainA.collectRes
    else if c % 4 = 1 then MainA.setProgress (c / 4 + 1)
    else if c % 4 = 2 then MainA.setDirty
    else MainA.setEvent
  else if c = 4 * n then MainA.setDone
  else MainA.setEvent

/-- Effect of one main-loop statement on the state. -/
def applyMain (s : TSt) : MainA → TSt
  | MainA.collectRes => { s with collected := s.collected + 1, mainC := s.mainC + 1 }
  | MainA.setProgress k => { s with progress := k, mainC := s.mainC + 1 }
  | MainA.setDirty => { s with dirty := true, mainC := s.mainC + 1 }
  | MainA.setEvent => { s with evSet := true, mainC := s.mainC + 1 }
  | MainA.setDone => { s with done := true, mainC := s.mainC + 1 }

/-- The main loop's next state. -/
def mainNext (n : ℕ) (s : TSt) : TSt := applyMain s (mainAct n s.mainC)

/-- The thread's next state; ok tells whether the task.update call
succeeds (on failure the exception is caught and printed, dirty stays
set and the event is not cleared). -/
def thrNext (s : TSt) (ok : Bool) : TSt :=
  match s.thr with
  | ThrPC.checkDone =>
    if s.done then { s with thr := ThrPC.halted } else { s with thr := ThrPC.checkDirty }
  | ThrPC.checkDirty =>
    if s.dirty then { s with thr := ThrPC.attempt } else { s with thr := ThrPC.waitEv }
  | ThrPC.attempt =>
    if ok then { s with pushes := s.pushes ++ [s.progress], thr := ThrPC.setDirtyFalse }
    else { s with thr := ThrPC.waitEv }
  | ThrPC.setDirtyFalse => { s with dirty := false, thr := ThrPC.clearEv }
  | ThrPC.clearEv => { s with evSet := false, thr := ThrPC.waitEv }
  | ThrPC.waitEv => { s with thr := ThrPC.checkDone }
  | ThrPC.halted => s

/-- Whether the thread can take a step: wait() returns only once the
wake event is set, and a returned thread never steps again. -/
def thrEnabled (s : TSt) : Bool :=
  match s.thr with
  | ThrPC.waitEv => s.evSet
  | ThrPC.halted => false
  | _ => true

/-- Interleaving semantics: at each point either the main loop executes
its next statement (while it has one) or the thread executes its next
enabled step, with the scheduler also choosing whether an attempted
task.update succeeds. -/
inductive PStep (n : ℕ) : TSt → TSt → Prop where
  | main (s : TSt) (h : s.mainC < 4 * n + 2) : PStep n s (mainNext n s)
  | thr (s : TSt) (ok : Bool) (h : thrEnabled s = true) : PStep n s (thrNext s ok)

/-- The state right after thread.start(): shared flags clear, nothing
collected, thread at the top of its loop. -/
def initSt : TSt :=
  { progress := 0, dirty := false, done := false, evSet := false,
    mainC := 0, collected := 0, thr := ThrPC.checkDone, pushes := [] }

/-- The states an n-trial run can reach under some interleaving. -/
def Reaches (n : ℕ) (s : TSt) : Prop := Relation.ReflTransGen (PStep n) initSt s

lemma npDotVV_cons (a : ℚ) (v : List ℚ) (b : ℚ) (w : List ℚ) :
    npDotVV (a :: v) (b :: w) = a * b + npDotVV v w := by
  simp [npDotVV]

lemma npDotVV_replicate_zero (n : ℕ) (v : List ℚ) :
    npDotVV (List.replicate n 0) v = 0 := by
  induction n generalizing v with
  | zero => simp [npDotVV]
  | succ m ih =>
    cases v with
    | nil => simp [npDotVV]
    | cons b w => simp [List.replicate_succ, npDotVV_cons, ih]

lemma sq_dot_eq_diag_quadForm :
    ∀ d Q : List ℚ, d.length = Q.length →
      npDotVV (d.map (fun x => x ^ 2)) Q = quadForm d (diagM Q) := by
  intro d
  induction d with
  | nil =>
    intro Q hQ
    cases Q with
    | nil => simp [npDotVV, quadForm, diagM]
    | cons q Qs => simp at hQ
  | cons x d ih =>
    intro Q hQ
    cases Q with
    | nil => simp at hQ
    | cons q Qs =>
      have hlen : d.length = Qs.length := by simpa using hQ
      have hrec := ih Qs hlen
      simp only [List.map_cons, diagM, quadForm, List.map_map, Function.comp_def,
        npDotVV_cons, npDotVV_replicate_zero, zero_mul, zero_add, add_zero] at hrec ⊢
      rw [← hrec]
      ring

/-- Claim C4 (amended): the recorded loss np.dot((mean - true)**2, Q)
treats model.Q as a per-parameter weight vector; it equals the
quadratic form delta^T M delta only for the diagonal matrix M built
from that vector, not for a general parameter-count-square matrix. -/
theorem loss_eq_diag_quadratic (mean tru Q : List ℚ)
    (h1 : mean.length = Q.length) (h2 : tru.length = Q.length) :
    lossOf mean tru Q
      = quadForm (List.zipWith (fun a b => a - b) mean tru) (diagM Q) := by
  have hlen : (List.zipWith (fun a b => a - b) mean tru).length = Q.length := by
    simp [h1, h2]
  simpa [lossOf] using sq_dot_eq_diag_quadForm (List.zipWith (fun a b => a - b) mean tru) Q hlen

/-- Claim C4 witness: the amended statement evaluated at mean = [1, 2],
true = [0, 0], Q = [1, 1]. -/
theorem loss_eq_diag_quadratic_witness :
    lossOf [1, 2] [0, 0] [1, 1]
      = quadForm (List.zipWith (fun a b => a - b) [(1 : ℚ), 2] [0, 0]) (diagM [1, 1]) :=
  loss_eq_diag_quadratic [1, 2] [0, 0] [1, 1] (by decide) (by decide)

/-- Claim C4 counterexample: with delta = mean - true = [1, 2] and the
2 x 2 all-ones matrix in the role the claim assigns to Q, the value the
source computes and stores, np.dot(delta**2, Q), is the vector [5, 5],
while the claimed quadratic form delta^T Q delta is the scalar 9; the
two disagree, so the recorded loss is not the matrix quadratic form. -/
theorem loss_not_matrix_quadratic_counterexample :
    npDotVM (([(1 : ℚ), 2]).map (fun x => x ^ 2)) [[1, 1], [1, 1]] = [5, 5] ∧
    quadForm [(1 : ℚ), 2] [[1, 1], [1, 1]] = 9 ∧
    npDotVM (([(1 : ℚ), 2]).map (fun x => x ^ 2)) [[1, 1], [1, 1]]
      ≠ [quadForm [(1 : ℚ), 2] [[1, 1], [1, 1]]] := by
  refine ⟨?_, ?_, ?_⟩
  · norm_num [npDotVM, scaleRow, addRow]
  · norm_num [quadForm, npDotVV]
  · norm_num [npDotVM, scaleRow, addRow, quadForm, npDotVV]

/-- Claim C10: once stop() has been called, delta_t is the stop time
minus the creation time and is the same at any two later reads; the
timing() context manager produces exactly a Timer created at block
entry and stopped at block exit, so its delta_t is the duration of the
timed block, frozen thereafter. -/
theorem timer_stop_freezes_delta_t (t : Timer) (s t0 t1 r1 r2 : ℚ) :
    (t.stop s).delta_t r1 = s - t.tic ∧
    (t.stop s).delta_t r1 = (t.stop s).delta_t r2 ∧
    timing_run t0 t1 = (Timer.create t0).stop t1 ∧
    (timing_run t0 t1).delta_t r1 = t1 - t0 :=
  ⟨rfl, rfl, rfl, rfl⟩

/-- Claim C1: constructing the default serial apply handle never
succeeds - the constructor body reads the name fn, which is neither a
parameter of __init__(self, *args, **kwargs) nor a module global nor a
builtin, so apply_serial(fn, ...) raises NameError before any handle
exists and get() can never run the function. -/
theorem apply_serial_ctor_name_error (R : Type) (fnArg : Unit → R) :
    apply_serial_init fnArg = Except.error (PyErr.nameError "fn") := by
  have h : resolveName apply_serial_init_locals "fn"
      = Except.error (PyErr.nameError "fn") := rfl
  simp [apply_serial_init, h]

/-- Claim C2: with tskmon_client = None, perf_test_multiple never
returns a result array: the locals thread and task are assigned only
inside the if tskmon_client is not None block, so the collection loop's
if thread is not None (or, for zero trials, the final if task is not
None) raises UnboundLocalError, whatever apply capability is used. -/
theorem perf_test_multiple_none_client_never_returns (R : Type) (n_trials : ℕ)
    (trial_fn : Unit → R) (applyCap : (Unit → R) → Except PyErr (ApplyHandle R))
    (rows : List R) :
    perf_test_multiple_model n_trials trial_fn applyCap none ≠ Except.ok rows := by
  intro hok
  unfold perf_test_multiple_model at hok
  rcases hd : dispatchLoop applyCap trial_fn n_trials with e | handles
  · rw [hd] at hok
    exact Except.noConfusion hok
  · rw [hd] at hok
    cases handles with
    | nil => simp [collectLoop] at hok
    | cons h hs =>
      rcases hg : h.get with e2 | r
      · simp [collectLoop, hg] at hok
      · simp [collectLoop, hg] at hok

/-- Claim C5 counterexample: for a model whose expparams_dtype is
[("t", "float")], the per-trial perf_test records carry the field t but
the dtype perf_test_multiple allocates its (n_trials, n_exp) result
with does not, refuting the claim that each returned row contains one
field per entry of the model's expparams_dtype. -/
theorem multiple_dtype_drops_expparams_counterexample :
    ("t", "float") ∈ perf_test_result_dtype [("t", "float")] ∧
    ("t", "float") ∉ perf_test_multiple_result_dtype := by decide

/-- Claim C5 (amended): perf_test_multiple allocates its result with
shape (n_trials, n_exp), but with dtype PERFORMANCE_DTYPE only, so its
rows hold exactly loss, resample_count, elapsed_time and outcome; the
expparams_dtype fields appear only in the per-trial perf_test dtype. -/
theorem perf_test_multiple_dtype_shape (n_trials n_exp : ℕ)
    (expparams_dtype : List (String × String)) :
    (perf_test_multiple_alloc n_trials n_exp).length = n_trials ∧
    (∀ row ∈ perf_test_multiple_alloc n_trials n_exp, row.length = n_exp) ∧
    perf_test_multiple_result_dtype.map Prod.fst
      = ["loss", "resample_count", "elapsed_time", "outcome"] ∧
    perf_test_result_dtype expparams_dtype = PERFORMANCE_DTYPE ++ expparams_dtype := by
  refine ⟨by simp [perf_test_multiple_alloc], ?_, by decide, rfl⟩
  intro row hrow
  rw [List.eq_of_mem_replicate hrow]
  simp

/-- A concrete true model: the simulated outcome is always the single
outcome [0], whatever the true parameters and expparams are. -/
def demoTM : TrueModel ℕ := { simulate_experiment := fun _ _ => [0] }

/-- A concrete updater satisfying the harness's call contract: the
state is the list of data seen, est_mean is its length, resample_count
its length. -/
def demoOps : UpdaterOps (List ℤ) ℕ :=
  { init := []
    update := fun u d _ => d ++ u
    est_mean := fun u => [(u.length : ℚ)]
    resample_count := fun u => u.length }

/-- A concrete heuristic: stateless, proposes the number of updates so
far as the experiment parameter. -/
def demoHz : Heuristic Unit (List ℤ) ℕ :=
  { init := fun _ => ()
    call := fun _ u => (u.length, ()) }

/-- A concrete clock: reading k returns k seconds. -/
def demoClock : ℕ → ℚ := fun k => (k : ℚ)

lemma perf_testLoop_run {EP U H : Type} (tm : TrueModel EP) (Q : List ℚ)
    (ops : UpdaterOps U EP) (hz : Heuristic H U EP) (t : List ℚ) (clock : ℕ → ℚ)
    (hsim : ∀ eps : EP, (tm.simulate_experiment [t] eps).length = 1) :
    ∀ (fuel i : ℕ) (u : U) (h : H),
      u = (trialState tm ops hz [t] i).1 →
      h = (trialState tm ops hz [t] i).2 →
      perf_testLoop tm Q ops hz [t] clock fuel i u h
        = ((List.range' i fuel).map (fun j => recAt tm Q ops hz t clock j),
           ((List.range' i fuel).map traceBlock).flatten,
           some (trialState tm ops hz [t] (i + fuel)).1) := by
  intro fuel
  induction fuel with
  | zero =>
    intro i u h hu hh
    subst hu
    simp [perf_testLoop]
  | succ m ih =>
    intro i u h hu hh
    subst hu
    subst hh
    simp only [perf_testLoop]
    split
    next hcond =>
      rw [ih (i + 1)
          (ops.update (trialState tm ops hz [t] i).1
            (tm.simulate_experiment [t]
              (hz.call (trialState tm ops hz [t] i).2 (trialState tm ops hz [t] i).1).1)
            (hz.call (trialState tm ops hz [t] i).2 (trialState tm ops hz [t] i).1).1)
          ((hz.call (trialState tm ops hz [t] i).2 (trialState tm ops hz [t] i).1).2)
          rfl rfl]
      rw [List.range'_succ i m 1]
      simp only [List.map_cons, List.flatten_cons, Prod.mk.injEq, List.cons.injEq]
      refine ⟨⟨?_, trivial⟩, ?_, ?_⟩
      · simp [recAt, trialEps, trialDatum, timing_run, trialState, List.headI]
      · simp [traceBlock]
      · have hidx : i + 1 + m = i + (m + 1) := by omega
        rw [hidx]
    next hcond =>
      exact absurd ⟨by simp, hsim _⟩ hcond

/-- Claim C6: row i of a perf_test trial with the single true parameter
vector t holds exactly the loss at the posterior mean after update i,
the updater's cumulative resample count after update i, the delta_t of
the Timer wrapping update i alone, the integer outcome of experiment i,
and the expparams the heuristic chose for experiment i; the array has
one row per experiment. -/
theorem perf_test_record_contents {EP U H : Type} (tm : TrueModel EP) (Q : List ℚ)
    (ops : UpdaterOps U EP) (hz : Heuristic H U EP) (t : List ℚ) (clock : ℕ → ℚ)
    (n_exp : ℕ) (hsim : ∀ eps : EP, (tm.simulate_experiment [t] eps).length = 1)
    (i : ℕ) (hi : i < n_exp) :
    (perf_test tm Q ops hz [t] clock n_exp).1.length = n_exp ∧
    (perf_test tm Q ops hz [t] clock n_exp).1[i]?
      = some (recAt tm Q ops hz t clock i) := by
  have hrun := perf_testLoop_run tm Q ops hz t clock hsim n_exp 0 ops.init
    (hz.init ops.init) rfl rfl
  rw [← List.range_eq_range' n_exp] at hrun
  constructor
  · simp [perf_test, hrun]
  · simp [perf_test, hrun, List.getElem?_map, List.getElem?_range, hi]

/-- Claim C6 witness: the record characterisation instantiated for a
concrete model, updater, heuristic and clock at trial length 3, row 1. -/
theorem perf_test_record_contents_witness :
    (perf_test demoTM [1] demoOps demoHz [[0]] demoClock 3).1.length = 3 ∧
    (perf_test demoTM [1] demoOps demoHz [[0]] demoClock 3).1[1]?
      = some (recAt demoTM [1] demoOps demoHz [0] demoClock 1) :=
  perf_test_record_contents demoTM [1] demoOps demoHz [0] demoClock 3
    (fun _ => rfl) 1 (by decide)

/-- Claim C7: one trial performs, in this exact order: updater
construction, heuristic construction, then for each experiment index i
the heuristic call, the simulate_experiment call on the true model, the
updater.update call, and only then the performance-record write. -/
theorem perf_test_event_order {EP U H : Type} (tm : TrueModel EP) (Q : List ℚ)
    (ops : UpdaterOps U EP) (hz : Heuristic H U EP) (t : List ℚ) (clock : ℕ → ℚ)
    (n_exp : ℕ) (hsim : ∀ eps : EP, (tm.simulate_experiment [t] eps).length = 1) :
    (perf_test tm Q ops hz [t] clock n_exp).2.1
      = Ev.mkUpdater :: Ev.mkHeuristic :: ((List.range n_exp).map traceBlock).flatten := by
  have hrun := perf_testLoop_run tm Q ops hz t clock hsim n_exp 0 ops.init
    (hz.init ops.init) rfl rfl
  rw [← List.range_eq_range' n_exp] at hrun
  simp [perf_test, hrun]

/-- Claim C7 witness: the event order instantiated for a concrete
model, updater, heuristic and clock at trial length 2. -/
theorem perf_test_event_order_witness :
    (perf_test demoTM [1] demoOps demoHz [[0]] demoClock 2).2.1
      = Ev.mkUpdater :: Ev.mkHeuristic :: ((List.range 2).map traceBlock).flatten :=
  perf_test_event_order demoTM [1] demoOps demoHz [0] demoClock 2 (fun _ => rfl)

lemma perf_testLoop_indep {EP U H : Type} (tm : TrueModel EP) (Q : List ℚ)
    (ops : UpdaterOps U EP) (hz : Heuristic H U EP) (t1 t2 : List (List ℚ))
    (clock : ℕ → ℚ)
    (hsim : ∀ eps : EP, tm.simulate_experiment t1 eps = tm.simulate_experiment t2 eps)
    (hlen : t1.length = t2.length) :
    ∀ (fuel i : ℕ) (u : U) (h : H),
      (perf_testLoop tm Q ops hz t1 clock fuel i u h).2.1
        = (perf_testLoop tm Q ops hz t2 clock fuel i u h).2.1 ∧
      (perf_testLoop tm Q ops hz t1 clock fuel i u h).2.2
        = (perf_testLoop tm Q ops hz t2 clock fuel i u h).2.2 ∧
      (perf_testLoop tm Q ops hz t1 clock fuel i u h).1.map stripLoss
        = (perf_testLoop tm Q ops hz t2 clock fuel i u h).1.map stripLoss := by
  intro fuel
  induction fuel with
  | zero => intro i u h; simp [perf_testLoop]
  | succ m ih =>
    intro i u h
    simp only [perf_testLoop, hsim ((hz.call h u).1), List.length_map, hlen]
    by_cases hc : t2.length = 1 ∧ (tm.simulate_experiment t2 (hz.call h u).1).length = 1
    · rw [if_pos hc, if_pos hc]
      obtain ⟨h1, h2, h3⟩ := ih (i + 1) (ops.update u (tm.simulate_experiment t2 (hz.call h u).1) (hz.call h u).1) ((hz.call h u).2)
      refine ⟨by simp [h1], h2, ?_⟩
      simp only [List.map_cons, h3, List.cons.injEq, and_true]
      rfl
    · rw [if_neg hc, if_neg hc]
      exact ⟨rfl, rfl, rfl⟩

/-- Claim C8: the harness constructs the updater solely from the
inference side (ops.init) and true_mps influences the run only through
the simulated outcomes and the loss field: two perf_test runs that
differ only in true_mps but whose simulate_experiment calls return the
same outcomes produce the same event trace, the same final updater
state, and records identical in every field except loss. -/
theorem perf_test_true_mps_noninterference {EP U H : Type} (tm : TrueModel EP)
    (Q : List ℚ) (ops : UpdaterOps U EP) (hz : Heuristic H U EP)
    (t1 t2 : List (List ℚ)) (clock : ℕ → ℚ) (n_exp : ℕ)
    (hsim : ∀ eps : EP, tm.simulate_experiment t1 eps = tm.simulate_experiment t2 eps)
    (hlen : t1.length = t2.length) :
    (perf_test tm Q ops hz t1 clock n_exp).2.2
      = (perf_test tm Q ops hz t2 clock n_exp).2.2 ∧
    (perf_test tm Q ops hz t1 clock n_exp).2.1
      = (perf_test tm Q ops hz t2 clock n_exp).2.1 ∧
    (perf_test tm Q ops hz t1 clock n_exp).1.map stripLoss
      = (perf_test tm Q ops hz t2 clock n_exp).1.map stripLoss := by
  obtain ⟨h1, h2, h3⟩ := perf_testLoop_indep tm Q ops hz t1 t2 clock hsim hlen
    n_exp 0 ops.init (hz.init ops.init)
  exact ⟨h2, by simp [perf_test, h1], h3⟩

/-- Claim C8 witness: two runs with different true parameter vectors
whose simulated outcomes agree, at a concrete instance. -/
theorem perf_test_true_mps_noninterference_witness :
    (perf_test demoTM [1] demoOps demoHz [[0]] demoClock 2).2.2
      = (perf_test demoTM [1] demoOps demoHz [[5]] demoClock 2).2.2 ∧
    (perf_test demoTM [1] demoOps demoHz [[0]] demoClock 2).2.1
      = (perf_test demoTM [1] demoOps demoHz [[5]] demoClock 2).2.1 ∧
    (perf_test demoTM [1] demoOps demoHz [[0]] demoClock 2).1.map stripLoss
      = (perf_test demoTM [1] demoOps demoHz [[5]] demoClock 2).1.map stripLoss :=
  perf_test_true_mps_noninterference demoTM [1] demoOps demoHz [[0]] [[5]] demoClock 2
    (fun _ => rfl) rfl

/-- Claim C3 counterexample: at a concrete instance with two true
parameter vectors (true_mps.shape[0] = 2 > 1), the trial still begins
executing - the heuristic call, the simulation and the update all
happen - and no validation error precedes them; the run dies only at
the first performance-record write, refuting the claim that a
caller-input-validation error is raised before any trial executes. -/
theorem perf_test_no_validation_counterexample :
    (perf_test demoTM [1] demoOps demoHz [[0], [0]] demoClock 1).2.1
      = [Ev.mkUpdater, Ev.mkHeuristic, Ev.heurCall 0, Ev.simCall 0,
         Ev.updCall 0, Ev.assignErr 0] ∧
    Ev.heurCall 0 ∈ (perf_test demoTM [1] demoOps demoHz [[0], [0]] demoClock 1).2.1 ∧
    (perf_test demoTM [1] demoOps demoHz [[0], [0]] demoClock 1).1 = [] ∧
    (perf_test demoTM [1] demoOps demoHz [[0], [0]] demoClock 1).2.2 = none := by
  refine ⟨by decide, by decide, by decide, by decide⟩

/-- Claim C3 (amended): perf_test performs no caller-input validation
of true_mps at all - when true_mps holds other than one true parameter
vector and at least one experiment is requested, the first experiment's
heuristic call, simulation and update are all executed, and the trial
fails at the first performance-record write (the multi-valued loss and
outcome cannot be stored in scalar record fields), producing no
records. -/
theorem perf_test_no_pre_trial_validation {EP U H : Type} (tm : TrueModel EP)
    (Q : List ℚ) (ops : UpdaterOps U EP) (hz : Heuristic H U EP)
    (trueMps : List (List ℚ)) (clock : ℕ → ℚ) (n_exp : ℕ)
    (hmulti : trueMps.length ≠ 1) (hn : 1 ≤ n_exp) :
    (perf_test tm Q ops hz trueMps clock n_exp).2.1
      = [Ev.mkUpdater, Ev.mkHeuristic, Ev.heurCall 0, Ev.simCall 0,
         Ev.updCall 0, Ev.assignErr 0] ∧
    (perf_test tm Q ops hz trueMps clock n_exp).1 = [] ∧
    (perf_test tm Q ops hz trueMps clock n_exp).2.2 = none := by
  obtain ⟨m, rfl⟩ : ∃ m, n_exp = m + 1 := ⟨n_exp - 1, by omega⟩
  simp only [perf_test, perf_testLoop]
  rw [if_neg]
  · exact ⟨rfl, rfl, rfl⟩
  · rintro ⟨h1, -⟩
    simp only [List.length_map] at h1
    exact hmulti h1

/-- Claim C3 witness for the amended statement: a run with an empty
true-parameter array (length 0, not 1) and two requested experiments. -/
theorem perf_test_no_pre_trial_validation_witness :
    (perf_test demoTM [1] demoOps demoHz [] demoClock 2).2.1
      = [Ev.mkUpdater, Ev.mkHeuristic, Ev.heurCall 0, Ev.simCall 0,
         Ev.updCall 0, Ev.assignErr 0] ∧
    (perf_test demoTM [1] demoOps demoHz [] demoClock 2).1 = [] ∧
    (perf_test demoTM [1] demoOps demoHz [] demoClock 2).2.2 = none :=
  perf_test_no_pre_trial_validation demoTM [1] demoOps demoHz [] demoClock 2
    (by decide) (by decide)

/-- Invariant of the interleaved system: the progress counter tracks
the main loop's position and never exceeds n; a set dirty flag means at
least one trial completed; the thread attempts an update only while
dirty is set; and the pushed values are non-decreasing, each between 1
and the current progress. -/
def SysInv (n : ℕ) (s : TSt) : Prop :=
  s.progress = min n ((s.mainC + 2) / 4) ∧
  s.mainC ≤ 4 * n + 2 ∧
  (s.dirty = true → 1 ≤ s.progress) ∧
  (s.thr = ThrPC.attempt → s.dirty = true) ∧
  List.Chain' (· ≤ ·) s.pushes ∧
  ∀ v ∈ s.pushes, 1 ≤ v ∧ v ≤ s.progress

lemma inv_init (n : ℕ) : SysInv n initSt := by
  refine ⟨by simp [initSt], by simp [initSt], ?_, ?_, ?_, ?_⟩ <;> simp [initSt]

lemma inv_main (n : ℕ) (s : TSt) (hlt : s.mainC < 4 * n + 2) (hI : SysInv n s) :
    SysInv n (mainNext n s) := by
  obtain ⟨h1, h2, h3, h4, h5, h6⟩ := hI
  unfold mainNext mainAct
  split_ifs with c1 c2 c3 c4 c5
  · refine ⟨?_, ?_, h3, h4, h5, h6⟩
    · show s.progress = min n ((s.mainC + 1 + 2) / 4)
      omega
    · show s.mainC + 1 ≤ 4 * n + 2
      omega
  · refine ⟨?_, ?_, ?_, h4, h5, ?_⟩
    · show s.mainC / 4 + 1 = min n ((s.mainC + 1 + 2) / 4)
      omega
    · show s.mainC + 1 ≤ 4 * n + 2
      omega
    · intro _
      show 1 ≤ s.mainC / 4 + 1
      omega
    · intro v hv
      have hb := h6 v hv
      show 1 ≤ v ∧ v ≤ s.mainC / 4 + 1
      omega
  · refine ⟨?_, ?_, ?_, fun _ => rfl, h5, h6⟩
    · show s.progress = min n ((s.mainC + 1 + 2) / 4)
      omega
    · show s.mainC + 1 ≤ 4 * n + 2
      omega
    · intro _
      show 1 ≤ s.progress
      omega
  · refine ⟨?_, ?_, h3, h4, h5, h6⟩
    · show s.progress = min n ((s.mainC + 1 + 2) / 4)
      omega
    · show s.mainC + 1 ≤ 4 * n + 2
      omega
  · refine ⟨?_, ?_, h3, h4, h5, h6⟩
    · show s.progress = min n ((s.mainC + 1 + 2) / 4)
      omega
    · show s.mainC + 1 ≤ 4 * n + 2
      omega
  · refine ⟨?_, ?_, h3, h4, h5, h6⟩
    · show s.progress = min n ((s.mainC + 1 + 2) / 4)
      omega
    · show s.mainC + 1 ≤ 4 * n + 2
      omega

lemma inv_thr (n : ℕ) (s : TSt) (ok : Bool) (hI : SysInv n s) : SysInv n (thrNext s ok) := by
  obtain ⟨h1, h2, h3, h4, h5, h6⟩ := hI
  cases hthr : s.thr with
  | checkDone =>
    simp only [thrNext, hthr]
    split_ifs with hd
    · refine ⟨h1, h2, h3, ?_, h5, h6⟩
      intro h
      simp at h
    · refine ⟨h1, h2, h3, ?_, h5, h6⟩
      intro h
      simp at h
  | checkDirty =>
    simp only [thrNext, hthr]
    split_ifs with hd
    · exact ⟨h1, h2, h3, fun _ => hd, h5, h6⟩
    · refine ⟨h1, h2, h3, ?_, h5, h6⟩
      intro h
      simp at h
  | attempt =>
    have hdt : s.dirty = true := h4 hthr
    have hp1 : 1 ≤ s.progress := h3 hdt
    simp only [thrNext, hthr]
    split_ifs with hok
    · refine ⟨h1, h2, h3, ?_, ?_, ?_⟩
      · intro h
        simp at h
      · show List.Chain' (· ≤ ·) (s.pushes ++ [s.progress])
        rw [List.chain'_append]
        refine ⟨h5, List.chain'_singleton s.progress, ?_⟩
        intro x hx y hy
        simp only [List.head?_cons, Option.mem_def, Option.some.injEq] at hy
        subst hy
        exact (h6 x (List.mem_of_mem_getLast? hx)).2
      · intro v hv
        rcases List.mem_append.mp hv with hv1 | hv2
        · exact h6 v hv1
        · have hveq : v = s.progress := by simpa using hv2
          subst hveq
          exact ⟨hp1, le_refl _⟩
    · refine ⟨h1, h2, h3, ?_, h5, h6⟩
      intro h
      simp at h
  | setDirtyFalse =>
    simp only [thrNext, hthr]
    refine ⟨h1, h2, ?_, ?_, h5, h6⟩
    · intro h
      simp at h
    · intro h
      simp at h
  | clearEv =>
    simp only [thrNext, hthr]
    refine ⟨h1, h2, h3, ?_, h5, h6⟩
    intro h
    simp at h
  | waitEv =>
    simp only [thrNext, hthr]
    refine ⟨h1, h2, h3, ?_, h5, h6⟩
    intro h
    simp at h
  | halted =>
    simp only [thrNext, hthr]
    exact ⟨h1, h2, h3, h4, h5, h6⟩

lemma reaches_inv (n : ℕ) (s : TSt) (h : Reaches n s) : SysInv n s := by
  unfold Reaches at h
  induction h with
  | refl => exact inv_init n
  | tail hab hbc ih =>
    cases hbc with
    | main hlt => exact inv_main n _ hlt ih
    | thr ok he => exact inv_thr n _ ok ih

lemma thrNext_preserves_main (s : TSt) (ok : Bool) :
    (thrNext s ok).mainC = s.mainC ∧ (thrNext s ok).collected = s.collected := by
  unfold thrNext
  cases s.thr <;>
    first
      | (split_ifs <;> exact ⟨rfl, rfl⟩)
      | exact ⟨rfl, rfl⟩

/-- Claim C9 (amended): under every interleaving of the collection loop
with its WebProgressThread, the sequence of progress values the thread
successfully pushes via task.update is monotonically non-decreasing,
each value between 1 and n_trials (the pushed value is thread.progress,
which the loop sets to idx + 1 right after collecting trial idx's
result); thread steps - including a failing task.update call, which is
caught and printed - never change the trial loop's own state, and the
trial loop always has its next step available regardless of the thread.
Strict increase does not hold: an update racing the next dirty-flag set
can push the same count twice. -/
theorem progress_pushes_monotone (n : ℕ) (s : TSt) (h : Reaches n s) :
    (List.Chain' (· ≤ ·) s.pushes ∧ ∀ v ∈ s.pushes, 1 ≤ v ∧ v ≤ n) ∧
    (∀ ok : Bool, (thrNext s ok).mainC = s.mainC ∧
      (thrNext s ok).collected = s.collected) ∧
    (s.mainC < 4 * n + 2 → ∃ s2 : TSt, PStep n s s2) := by
  obtain ⟨h1, h2, h3, h4, h5, h6⟩ := reaches_inv n s h
  refine ⟨⟨h5, ?_⟩, fun ok => thrNext_preserves_main s ok,
    fun hlt => ⟨mainNext n s, PStep.main s hlt⟩⟩
  intro v hv
  have hb := h6 v hv
  omega

/-- Claim C9 witness: the amended statement at the initial state of a
one-trial run. -/
theorem progress_pushes_monotone_witness :
    (List.Chain' (· ≤ ·) initSt.pushes ∧ ∀ v ∈ initSt.pushes, 1 ≤ v ∧ v ≤ 1) ∧
    (∀ ok : Bool, (thrNext initSt ok).mainC = initSt.mainC ∧
      (thrNext initSt ok).collected = initSt.collected) ∧
    (initSt.mainC < 4 * 1 + 2 → ∃ s2 : TSt, PStep 1 initSt s2) :=
  progress_pushes_monotone 1 initSt Relation.ReflTransGen.refl

/-- Claim C9 counterexample: a reachable interleaving of a two-trial
run in which the thread reads progress only after the main loop has
already advanced it to 2, pushes 2, clears the dirty flag over the main
loop's second request, and then - woken again - pushes 2 a second time:
the pushed sequence [2, 2] is not strictly increasing, refuting the
claimed strict monotonicity. -/
theorem progress_push_duplicate_counterexample :
    ∃ s : TSt, Reaches 2 s ∧ s.pushes = [2, 2] ∧ ¬ List.Chain' (· < ·) [2, 2] := by
  have h0 : Relation.ReflTransGen (PStep 2) initSt initSt := Relation.ReflTransGen.refl
  have hreach := h0
      |>.tail (PStep.main initSt (by decide))
      |>.tail (PStep.main _ (by decide))
      |>.tail (PStep.main _ (by decide))
      |>.tail (PStep.main _ (by decide))
      |>.tail (PStep.thr _ true (by decide))
      |>.tail (PStep.thr _ true (by decide))
      |>.tail (PStep.main _ (by decide))
      |>.tail (PStep.main _ (by decide))
      |>.tail (PStep.thr _ true (by decide))
      |>.tail (PStep.thr _ true (by decide))
      |>.tail (PStep.thr _ true (by decide))
      |>.tail (PStep.main _ (by decide))
      |>.tail (PStep.main _ (by decide))
      |>.tail (PStep.thr _ true (by decide))
      |>.tail (PStep.thr _ true (by decide))
      |>.tail (PStep.thr _ true (by decide))
      |>.tail (PStep.thr _ true (by decide))
  exact ⟨_, hreach, by decide, by simp [List.chain'_cons]⟩
